import Mathlib

/-!
Shallow embedding of src/influxdbclient/influxdb_client.go
(18F/influxdb-firehose-nozzle) and proofs about it.

Modelling conventions:
  - Go float64 values are embedded as rationals. The client never computes
    with them: it only stores values taken from envelopes (or converted from
    uint64 counters, which is exact below 2 ^ 53) and prints them, so the
    embedding is exact on every value evaluated in this development.
  - Go signed 64-bit arithmetic wraps on overflow; `wrap64` makes the wrap
    explicit where the source multiplies timestamps.
  - uint64 counters are naturals reduced modulo 2 ^ 64 at each update.
  - The Go map is modelled as an association list whose iteration order is
    the list order: the Go iteration order is unspecified, and every theorem
    below is either order-independent or evaluates a concrete map.
  - protobuf getters are nil-safe: Get on a missing field or a missing
    nested message returns the zero value of the field type.
  - `time.Now()` is passed in explicitly as a `now : Int` argument.
  - A Go panic is modelled as `none`.
-/

namespace Influxdbclient

set_option maxRecDepth 8000

/-- Reduction of an integer into the int64 range by two-complement wrap,
modelling Go signed 64-bit overflow. -/
def wrap64 (i : Int) : Int := (i + 2 ^ 63) % 2 ^ 64 - 2 ^ 63

/-- Fractional decimal digits of r / d, most significant digit first, stopping
once the remainder reaches zero; the first argument is fuel. Every float64
value has a terminating decimal expansion whose length is at most its
denominator, so fuel d is always sufficient for the rationals arising here. -/
def fracDigits : Nat → Nat → Nat → List Nat
  | 0, _, _ => []
  | _ + 1, 0, _ => []
  | fuel + 1, r, d => (r * 10 / d) :: fracDigits fuel (r * 10 % d) d

/-- Models strconv.FormatFloat(v, f, -1, 64): the shortest decimal string that
round-trips the float64 v, printed without an exponent. On float64 values
whose shortest round-tripping decimal is their exact decimal expansion (which
covers every value this development evaluates, such as 3.5, 1 and 0) that is
the exact expansion printed without trailing zeros. -/
def formatFloat (q : ℚ) : String :=
  (if q.num < 0 then "-" else "")
    ++ toString (q.num.natAbs / q.den)
    ++ (match fracDigits q.den (q.num.natAbs % q.den) q.den with
        | [] => ""
        | ds => "." ++ String.mk (ds.map Nat.digitChar))

/-- events.Envelope_EventType from dropsonde-protocol envelope.proto, embedded
as the underlying enum numeral. The Go zero value of the enum type is 0. -/
abbrev EventType := Nat

def Envelope_ValueMetric : EventType := 6

def Envelope_CounterEvent : EventType := 7

/-- proto2 getter default for an unset eventType field: the first declared
enum value (HttpStart). Only its being distinct from ValueMetric and
CounterEvent matters below. -/
def Envelope_HttpStart : EventType := 2

/-- Nested ValueMetric payload; proto2 optional fields are pointers in Go,
embedded as Option. Only the fields this client reads are modelled. -/
structure ValueMetric where
  name : Option String
  value : Option ℚ
deriving DecidableEq, Repr

/-- Nested CounterEvent payload. Only the fields this client reads are
modelled; total is a uint64. -/
structure CounterEvent where
  name : Option String
  total : Option Nat
deriving DecidableEq, Repr

/-- events.Envelope: the fields this client reads. Missing nested messages
are none, and the getters below are nil-safe like the generated Go ones. -/
structure Envelope where
  origin : Option String
  eventType : Option EventType
  timestamp : Option Int
  deployment : Option String
  job : Option String
  index : Option String
  ip : Option String
  valueMetric : Option ValueMetric
  counterEvent : Option CounterEvent
deriving DecidableEq, Repr

def Envelope.getOrigin (e : Envelope) : String := e.origin.getD ""

def Envelope.getEventType (e : Envelope) : EventType :=
  e.eventType.getD Envelope_HttpStart

def Envelope.getTimestamp (e : Envelope) : Int := e.timestamp.getD 0

def Envelope.getDeployment (e : Envelope) : String := e.deployment.getD ""

def Envelope.getJob (e : Envelope) : String := e.job.getD ""

def Envelope.getIndex (e : Envelope) : String := e.index.getD ""

def Envelope.getIp (e : Envelope) : String := e.ip.getD ""

/-- GetName on a possibly-missing ValueMetric message (nil-safe getter). -/
def vmGetName : Option ValueMetric → String
  | some v => v.name.getD ""
  | none => ""

/-- GetValue on a possibly-missing ValueMetric message (nil-safe getter). -/
def vmGetValue : Option ValueMetric → ℚ
  | some v => v.value.getD 0
  | none => 0

/-- GetName on a possibly-missing CounterEvent message (nil-safe getter). -/
def ceGetName : Option CounterEvent → String
  | some c => c.name.getD ""
  | none => ""

/-- GetTotal on a possibly-missing CounterEvent message (nil-safe getter). -/
def ceGetTotal : Option CounterEvent → Nat
  | some c => c.total.getD 0
  | none => 0

/-- Point: an observation with a truncated-to-seconds timestamp and a float64
value. -/
structure Point where
  timestamp : Int
  value : ℚ
deriving DecidableEq, Repr

/-- metricKey: the composite identity keying the aggregate map. -/
structure metricKey where
  eventType : EventType
  name : String
  deployment : String
  job : String
  index : String
  ip : String
deriving DecidableEq, Repr

/-- metricValue: tag list plus accumulated point series of one entry. -/
structure metricValue where
  tags : List String
  points : List Point
deriving DecidableEq, Repr

/-- Zero value of metricValue, what reading an absent Go map key yields. -/
def mvZero : metricValue := { tags := [], points := [] }

/-- Lookup in the association-list model of the Go map. -/
def mapFind : List (metricKey × metricValue) → metricKey → Option metricValue
  | [], _ => none
  | kv :: m, k => if kv.1 = k then some kv.2 else mapFind m k

/-- Store in the association-list model of the Go map: replaces the binding
in place when the key is present, appends it otherwise. -/
def mapInsert : List (metricKey × metricValue) → metricKey → metricValue →
    List (metricKey × metricValue)
  | [], k, v => [(k, v)]
  | kv :: m, k, v => if kv.1 = k then (k, v) :: m else kv :: mapInsert m k v

/-- Client state. The Go field holding the configured name front-piece is a
Lean reserved word, so it is called pfx here; everything else keeps its
source name. -/
structure Client where
  url : String
  database : String
  user : String
  password : String
  metricPoints : List (metricKey × metricValue)
  pfx : String
  deployment : String
  ip : String
  totalMessagesReceived : Nat
  totalMetricsSent : Nat
deriving DecidableEq, Repr

/-- New: the constructor; both counters start at zero (Go zero values). -/
def New (url database user password pfx deployment ip : String) : Client :=
  { url := url, database := database, user := user, password := password,
    metricPoints := [], pfx := pfx, deployment := deployment, ip := ip,
    totalMessagesReceived := 0, totalMetricsSent := 0 }

/-- getName; the default branch of the Go switch panics, modelled as none.
The nested getters are nil-safe, so a missing payload yields the empty
metric-name component, not a panic. -/
def getName (e : Envelope) : Option String :=
  if e.getEventType = Envelope_ValueMetric then
    some (e.getOrigin ++ "." ++ vmGetName e.valueMetric)
  else if e.getEventType = Envelope_CounterEvent then
    some (e.getOrigin ++ "." ++ ceGetName e.counterEvent)
  else
    none

/-- getValue; the default branch of the Go switch panics, modelled as none.
The uint64 counter total is converted to float64, exact below 2 ^ 53. -/
def getValue (e : Envelope) : Option ℚ :=
  if e.getEventType = Envelope_ValueMetric then
    some (vmGetValue e.valueMetric)
  else if e.getEventType = Envelope_CounterEvent then
    some ((ceGetTotal e.counterEvent : ℚ))
  else
    none

/-- appendTagIfNotEmpty: appends key=value unless value is empty. -/
def appendTagIfNotEmpty (tags : List String) (key value : String) : List String :=
  if value ≠ "" then tags ++ [key ++ "=" ++ value] else tags

/-- getTags: deployment, job, index, ip in that fixed order, skipping empty
fields. -/
def getTags (e : Envelope) : List String :=
  appendTagIfNotEmpty
    (appendTagIfNotEmpty
      (appendTagIfNotEmpty
        (appendTagIfNotEmpty [] "deployment" e.getDeployment)
        "job" e.getJob)
      "index" e.getIndex)
    "ip" e.getIp

/-- AddMetric. The received-message counter is bumped before the kind check;
envelopes of other kinds are dropped with no further effect. Returns none
where the Go code would panic; that branch is unreachable because getName
and getValue only panic on event types the guard already filtered out. -/
def AddMetric (c : Client) (envelope : Envelope) : Option Client :=
  let c := { c with totalMessagesReceived := (c.totalMessagesReceived + 1) % 2 ^ 64 }
  if envelope.getEventType ≠ Envelope_ValueMetric ∧
     envelope.getEventType ≠ Envelope_CounterEvent then
    some c
  else
    match getName envelope, getValue envelope with
    | some name, some value =>
      let key : metricKey :=
        { eventType := envelope.getEventType, name := name,
          deployment := envelope.getDeployment, job := envelope.getJob,
          index := envelope.getIndex, ip := envelope.getIp }
      let mVal := (mapFind c.metricPoints key).getD mvZero
      let mVal : metricValue :=
        { tags := getTags envelope,
          points := mVal.points ++
            [{ timestamp := envelope.getTimestamp.tdiv 1000000000, value := value }] }
      some { c with metricPoints := mapInsert c.metricPoints key mVal }
    | _, _ => none

/-- Key of the internal metrics: the Go composite literal omits eventType,
job and index, so they hold their zero values (0, empty, empty). -/
def internalKey (c : Client) (name : String) : metricKey :=
  { eventType := 0, name := name, deployment := c.deployment,
    job := "", index := "", ip := c.ip }

/-- addInternalMetric: stores a single fresh point under the internal key,
replacing any previous entry, with fixed ip and deployment tags. -/
def addInternalMetric (c : Client) (name : String) (value : Nat) (now : Int) : Client :=
  let point : Point := { timestamp := now, value := (value : ℚ) }
  let mValue : metricValue :=
    { tags := ["ip=" ++ c.ip, "deployment=" ++ c.deployment],
      points := [point] }
  { c with metricPoints := mapInsert c.metricPoints (internalKey c name) mValue }

/-- AlertSlowConsumerError: records the slow-consumer alert with value 1. -/
def AlertSlowConsumerError (c : Client) (now : Int) : Client :=
  addInternalMetric c "slowConsumerAlert" 1 now

/-- containsSlowConsumerAlert: whether the alert entry is present. -/
def containsSlowConsumerAlert (c : Client) : Bool :=
  (mapFind c.metricPoints (internalKey c "slowConsumerAlert")).isSome

/-- populateInternalMetrics: always re-adds the two counters, then adds the
healthy 0-default alert only when no alert entry exists. -/
def populateInternalMetrics (c : Client) (now : Int) : Client :=
  let c := addInternalMetric c "totalMessagesReceived" c.totalMessagesReceived now
  let c := addInternalMetric c "totalMetricsSent" c.totalMetricsSent now
  if !containsSlowConsumerAlert c then
    addInternalMetric c "slowConsumerAlert" 0 now
  else
    c

/-- formatTags: the Go loop writes a comma before every tag except the first;
the counter component of the accumulator plays the role of the loop index. -/
def formatTags (tags : List String) : String :=
  (tags.foldl
    (fun acc tag => (acc.1 + 1, acc.2 ++ (if acc.1 > 0 then "," else "") ++ tag))
    ((0 : Nat), "")).2

/-- formatValues: one value= field per point, comma-separated, in point
order, mirroring the Go indexed loop. -/
def formatValues (points : List Point) : String :=
  (points.foldl
    (fun acc point =>
      (acc.1 + 1, acc.2 ++ (if acc.1 > 0 then "," else "") ++ ("value=" ++ formatFloat point.value)))
    ((0 : Nat), "")).2

/-- formatTimestamp: the first point timestamp scaled to nanoseconds, or the
wall clock when the point list is empty. -/
def formatTimestamp (points : List Point) (now : Int) : String :=
  match points with
  | point :: _ => toString (wrap64 (point.timestamp * 1000 * 1000 * 1000))
  | [] => toString (wrap64 (now * 1000 * 1000 * 1000))

/-- Body of the formatMetrics loop for one entry: measurement, a comma, the
tags, a space, the field set, a space, the timestamp, a newline. -/
def formatMetricLine (c : Client) (key : metricKey) (mVal : metricValue) (now : Int) : String :=
  c.pfx ++ key.name ++ "," ++ formatTags mVal.tags ++ " " ++ formatValues mVal.points
    ++ " " ++ formatTimestamp mVal.points now ++ "\n"

/-- formatMetrics: the serialized batch and the record count, which is the
number of entries of the map. -/
def formatMetrics (c : Client) (now : Int) : String × Nat :=
  (c.metricPoints.foldl (fun buffer kv => buffer ++ formatMetricLine c kv.1 kv.2 now) "",
   c.metricPoints.length)

/-- Outcome of the HTTP POST, which is out of scope: either a network error
from Do or a status code. -/
inductive TransportResult where
  | netError : TransportResult
  | status : Nat → TransportResult
deriving DecidableEq, Repr

/-- PostMetrics. The receiver is a pointer, so the internal-metric snapshot
persists even when the POST fails; only a 2xx status increments the sent
counter and resets the map. The Bool is true exactly when the Go method
returns a nil error. -/
def PostMetrics (c : Client) (now : Int) (result : TransportResult) : Client × Bool :=
  let c := populateInternalMetrics c now
  let metricsCount := (formatMetrics c now).2
  match result with
  | .netError => (c, false)
  | .status code =>
    if code ≥ 300 ∨ code < 200 then
      (c, false)
    else
      ({ c with
          totalMetricsSent := (c.totalMetricsSent + metricsCount) % 2 ^ 64,
          metricPoints := [] }, true)

/-- Folding AddMetric over a list of envelopes; none if any step panics. -/
def ingestAll (c : Client) : List Envelope → Option Client
  | [] => some c
  | e :: es =>
    match AddMetric c e with
    | some c2 => ingestAll c2 es
    | none => none

/-- The aggregate key AddMetric builds for a data envelope; meaningful when
the event type is value-metric or counter-event. -/
def keyOf (e : Envelope) : metricKey :=
  { eventType := e.getEventType, name := (getName e).getD "",
    deployment := e.getDeployment, job := e.getJob,
    index := e.getIndex, ip := e.getIp }

/-- The observation AddMetric appends for a data envelope. -/
def pointOf (e : Envelope) : Point :=
  { timestamp := e.getTimestamp.tdiv 1000000000, value := (getValue e).getD 0 }

/-- An envelope of one of the two aggregated kinds. -/
def kindOk (e : Envelope) : Prop :=
  e.getEventType = Envelope_ValueMetric ∨ e.getEventType = Envelope_CounterEvent

instance (e : Envelope) : Decidable (kindOk e) := by
  unfold kindOk; exact inferInstance

/-- The state AddMetric produces on an envelope of an aggregated kind. -/
def addStep (c : Client) (e : Envelope) : Client :=
  { c with
    totalMessagesReceived := (c.totalMessagesReceived + 1) % 2 ^ 64,
    metricPoints := mapInsert c.metricPoints (keyOf e)
      { tags := getTags e,
        points := ((mapFind c.metricPoints (keyOf e)).getD mvZero).points ++ [pointOf e] } }

/-- States reachable from a fresh client by the operations of the client. -/
inductive Reachable : Client → Prop where
  | init : ∀ url database user password pfx deployment ip,
      Reachable (New url database user password pfx deployment ip)
  | ingest : ∀ c e c2, Reachable c → AddMetric c e = some c2 → Reachable c2
  | alert : ∀ c now, Reachable c → Reachable (AlertSlowConsumerError c now)
  | snapshot : ∀ c now, Reachable c → Reachable (populateInternalMetrics c now)
  | flush : ∀ c now result, Reachable c → Reachable (PostMetrics c now result).1

/-- Comma-separation of a list of strings: no front comma, one comma between
neighbours. -/
def joinComma : List String → String
  | [] => ""
  | s :: ss => ss.foldl (fun acc t => acc ++ "," ++ t) s

/-- The POST outcomes the Go method treats as failures: a transport error or
a status outside [200, 300). -/
def isFailure : TransportResult → Prop
  | .netError => True
  | .status code => code ≥ 300 ∨ code < 200

instance : (r : TransportResult) → Decidable (isFailure r)
  | .netError => .isTrue trivial
  | .status _ => inferInstanceAs (Decidable (_ ∨ _))

/-- A concrete freshly constructed client used by concrete instances. -/
def cBase : Client := New "http://i" "db" "u" "pw" "app." "prod" "1.2.3.4"

/-- A concrete client holding exactly the aggregate entry of the round-trip
sentence of the spec. -/
def c1State : Client :=
  { url := "http://i", database := "db", user := "u", password := "pw",
    metricPoints :=
      [({ eventType := Envelope_ValueMetric, name := "name", deployment := "prod",
          job := "", index := "", ip := "1.2.3.4" },
        { tags := ["ip=1.2.3.4", "deployment=prod"],
          points := [{ timestamp := 1000, value := mkRat 7 2 }] })],
    pfx := "app.", deployment := "prod", ip := "1.2.3.4",
    totalMessagesReceived := 0, totalMetricsSent := 0 }

/-- A concrete value-metric envelope. -/
def e3a : Envelope :=
  { origin := some "org", eventType := some Envelope_ValueMetric,
    timestamp := some 1000000000, deployment := some "prod", job := some "router",
    index := some "0", ip := some "1.2.3.4",
    valueMetric := some { name := some "m", value := some (mkRat 1 1) },
    counterEvent := none }

/-- A second envelope with the same identity as e3a but another value and
timestamp. -/
def e3b : Envelope :=
  { e3a with timestamp := some 2000000000,
             valueMetric := some { name := some "m", value := some (mkRat 7 2) } }

/-- Envelope A of the tag-overwrite scenario: job is set. -/
def envA4 : Envelope :=
  { origin := some "org", eventType := some Envelope_ValueMetric,
    timestamp := some 1000000000, deployment := some "prod", job := some "x",
    index := some "0", ip := some "1.2.3.4",
    valueMetric := some { name := some "m", value := some (mkRat 1 1) },
    counterEvent := none }

/-- Envelope B of the tag-overwrite scenario: same fields as A apart from the
job, which is unset (the nil-safe getter reads it as empty). -/
def envB4 : Envelope := { envA4 with job := none, timestamp := some 2000000000 }

/-- A value-metric envelope whose nested ValueMetric payload is missing. -/
def envMissing : Envelope :=
  { origin := some "org", eventType := some Envelope_ValueMetric,
    timestamp := some 5000000000, deployment := some "prod", job := none,
    index := none, ip := some "1.2.3.4", valueMetric := none, counterEvent := none }

/-- An ingested value-metric envelope whose derived name mentions the alert
and whose deployment and ip match the client configuration of cBase. -/
def e10 : Envelope :=
  { origin := some "slowConsumerAlert", eventType := some Envelope_ValueMetric,
    timestamp := some 1000000000, deployment := some "prod", job := none,
    index := none, ip := some "1.2.3.4",
    valueMetric := some { name := some "", value := some (mkRat 1 1) },
    counterEvent := none }

/-- The state after ingesting e10 into cBase. -/
def c10after : Client := (AddMetric cBase e10).getD cBase

/- ------------------------------------------------------------------ -/
/- Lemmas on the association-list map                                  -/
/- ------------------------------------------------------------------ -/

theorem mapFind_insert_self (m : List (metricKey × metricValue)) (k : metricKey)
    (v : metricValue) : mapFind (mapInsert m k v) k = some v := by
  induction m with
  | nil => simp [mapInsert, mapFind]
  | cons kv m ih =>
    by_cases h : kv.1 = k
    · simp [mapInsert, h, mapFind]
    · simp [mapInsert, h, mapFind, ih]

theorem mapFind_insert_ne (m : List (metricKey × metricValue)) (k k2 : metricKey)
    (v : metricValue) (h : k2 ≠ k) :
    mapFind (mapInsert m k v) k2 = mapFind m k2 := by
  induction m with
  | nil => simp [mapInsert, mapFind, Ne.symm h]
  | cons kv m ih =>
    by_cases hk : kv.1 = k
    · simp [mapInsert, hk, mapFind, Ne.symm h]
    · simp [mapInsert, hk, mapFind, ih]

theorem mem_mapInsert (m : List (metricKey × metricValue)) (k : metricKey)
    (v : metricValue) (kv : metricKey × metricValue) (h : kv ∈ mapInsert m k v) :
    kv = (k, v) ∨ kv ∈ m := by
  induction m with
  | nil => simpa [mapInsert] using h
  | cons kv0 m ih =>
    by_cases hk : kv0.1 = k
    · simp only [mapInsert, if_pos hk, List.mem_cons] at h
      rcases h with h | h
      · exact Or.inl h
      · exact Or.inr (List.mem_cons_of_mem _ h)
    · simp only [mapInsert, if_neg hk, List.mem_cons] at h
      rcases h with h | h
      · exact Or.inr (h ▸ List.mem_cons_self _ _)
      · rcases ih h with h | h
        · exact Or.inl h
        · exact Or.inr (List.mem_cons_of_mem _ h)

theorem internalKey_ne (c : Client) (n1 n2 : String) (h : n1 ≠ n2) :
    internalKey c n1 ≠ internalKey c n2 :=
  fun hk => h (congrArg metricKey.name hk)

/- ------------------------------------------------------------------ -/
/- Lemmas on the serializer                                            -/
/- ------------------------------------------------------------------ -/

theorem formatTags_fold_aux (l : List String) :
    ∀ (n : Nat) (acc : String),
    (l.foldl (fun a t => (a.1 + 1, a.2 ++ (if a.1 > 0 then "," else "") ++ t))
        (n + 1, acc)).2
      = l.foldl (fun s t => s ++ "," ++ t) acc := by
  induction l with
  | nil => intro n acc; rfl
  | cons t l ih =>
    intro n acc
    simp only [List.foldl_cons, if_pos (Nat.succ_pos n)]
    exact ih (n + 1) (acc ++ "," ++ t)

theorem formatTags_eq (tags : List String) : formatTags tags = joinComma tags := by
  cases tags with
  | nil => rfl
  | cons t ts =>
    show (ts.foldl _ (0 + 1, "" ++ "" ++ t)).2 = _
    exact formatTags_fold_aux ts 0 ("" ++ "" ++ t)

theorem formatValues_fold_aux (l : List Point) :
    ∀ (n : Nat) (acc : String),
    (l.foldl (fun a p => (a.1 + 1, a.2 ++ (if a.1 > 0 then "," else "")
          ++ ("value=" ++ formatFloat p.value))) (n + 1, acc)).2
      = (l.map fun p => "value=" ++ formatFloat p.value).foldl
          (fun s t => s ++ "," ++ t) acc := by
  induction l with
  | nil => intro n acc; rfl
  | cons p l ih =>
    intro n acc
    simp only [List.foldl_cons, List.map_cons, if_pos (Nat.succ_pos n)]
    exact ih (n + 1) (acc ++ "," ++ ("value=" ++ formatFloat p.value))

theorem formatValues_eq (points : List Point) :
    formatValues points = joinComma (points.map fun p => "value=" ++ formatFloat p.value) := by
  cases points with
  | nil => rfl
  | cons p ps =>
    show (ps.foldl _ (0 + 1, "" ++ "" ++ ("value=" ++ formatFloat p.value))).2 = _
    exact formatValues_fold_aux ps 0 _

theorem formatMetrics_eq_join (c : Client) (now : Int) :
    (formatMetrics c now).1
      = String.join (c.metricPoints.map fun kv => formatMetricLine c kv.1 kv.2 now) := by
  simp [formatMetrics, String.join, List.foldl_map]

/- ------------------------------------------------------------------ -/
/- C1                                                                  -/
/- ------------------------------------------------------------------ -/

/-- C1: serializing the single aggregate entry with name "name", tags
ip=1.2.3.4 and deployment=prod, one point at second 1000 with value 3.5,
under the configured front string "app.", yields exactly the line
app.name,ip=1.2.3.4,deployment=prod value=3.5 1000000000000 followed by a
newline, and the record count 1. -/
theorem formatMetrics_single_entry_roundtrip :
    formatMetrics c1State 0
      = ("app.name,ip=1.2.3.4,deployment=prod value=3.5 1000000000000\n", 1) := by
  decide

/- ------------------------------------------------------------------ -/
/- C2                                                                  -/
/- ------------------------------------------------------------------ -/

/-- C2: the batch is the concatenation of exactly one line per entry; an
entry whose series holds the points p :: ps yields on its line one comma-
separated value= field per point, in point order, with the single timestamp
taken from the first point p scaled to nanoseconds; and the record count
returned by serialization is the number of entries of the map, not the
number of points. -/
theorem formatMetrics_line_structure_and_count (c : Client) (now : Int)
    (key : metricKey) (tags : List String) (p : Point) (ps : List Point) :
    (formatMetrics c now).1
        = String.join (c.metricPoints.map fun kv => formatMetricLine c kv.1 kv.2 now)
      ∧ formatMetricLine c key { tags := tags, points := p :: ps } now
        = c.pfx ++ key.name ++ "," ++ joinComma tags ++ " "
          ++ joinComma ((p :: ps).map fun q => "value=" ++ formatFloat q.value)
          ++ " " ++ toString (wrap64 (p.timestamp * 1000 * 1000 * 1000)) ++ "\n"
      ∧ (formatMetrics c now).2 = c.metricPoints.length := by
  refine ⟨formatMetrics_eq_join c now, ?_, rfl⟩
  show c.pfx ++ key.name ++ "," ++ formatTags tags ++ " "
      ++ formatValues (p :: ps) ++ " " ++ formatTimestamp (p :: ps) now ++ "\n" = _
  rw [formatTags_eq, formatValues_eq]
  rfl

/- ------------------------------------------------------------------ -/
/- Lemmas on AddMetric and ingestAll                                   -/
/- ------------------------------------------------------------------ -/

theorem AddMetric_kindOk (c : Client) (e : Envelope) (h : kindOk e) :
    AddMetric c e = some (addStep c e) := by
  rcases h with h | h <;>
    simp [AddMetric, addStep, keyOf, pointOf, getName, getValue, h,
      Envelope_ValueMetric, Envelope_CounterEvent]

theorem AddMetric_notKind (c : Client) (e : Envelope) (h : ¬ kindOk e) :
    AddMetric c e
      = some { c with totalMessagesReceived := (c.totalMessagesReceived + 1) % 2 ^ 64 } := by
  rw [kindOk, not_or] at h
  simp [AddMetric, h.1, h.2]

theorem ingestAll_append (xs ys : List Envelope) (c : Client) :
    ingestAll c (xs ++ ys) = (ingestAll c xs).bind fun c2 => ingestAll c2 ys := by
  induction xs generalizing c with
  | nil => rfl
  | cons x xs ih =>
    show ingestAll c (x :: (xs ++ ys)) = _
    rw [ingestAll, ingestAll]
    cases AddMetric c x with
    | none => rfl
    | some c2 => exact ih c2

theorem ingestAll_total (es : List Envelope) (c : Client)
    (h : ∀ e ∈ es, kindOk e) : ∃ c2, ingestAll c es = some c2 := by
  induction es generalizing c with
  | nil => exact ⟨c, rfl⟩
  | cons e es ih =>
    rw [ingestAll, AddMetric_kindOk c e (h e (List.mem_cons_self e es))]
    exact ih (addStep c e) fun x hx => h x (List.mem_cons_of_mem e hx)

theorem ingestAll_untouched (es : List Envelope) (c c2 : Client) (k : metricKey)
    (hkind : ∀ e ∈ es, kindOk e) (hk : ∀ e ∈ es, keyOf e ≠ k)
    (h : ingestAll c es = some c2) :
    mapFind c2.metricPoints k = mapFind c.metricPoints k := by
  induction es generalizing c with
  | nil => cases h; rfl
  | cons e es ih =>
    rw [ingestAll, AddMetric_kindOk c e (hkind e (List.mem_cons_self e es))] at h
    have := ih (addStep c e)
      (fun x hx => hkind x (List.mem_cons_of_mem e hx))
      (fun x hx => hk x (List.mem_cons_of_mem e hx)) h
    rw [this]
    show mapFind (mapInsert c.metricPoints (keyOf e) _) k = _
    exact mapFind_insert_ne _ _ _ _ (Ne.symm (hk e (List.mem_cons_self e es)))

theorem ingestAll_points_aux (es : List Envelope) (c : Client) (k : metricKey)
    (hkind : ∀ e ∈ es, kindOk e) (hkey : ∀ e ∈ es, keyOf e = k) :
    ∃ c2, ingestAll c es = some c2 ∧
      ((mapFind c2.metricPoints k).getD mvZero).points
        = ((mapFind c.metricPoints k).getD mvZero).points ++ es.map pointOf := by
  induction es generalizing c with
  | nil => exact ⟨c, rfl, by simp⟩
  | cons e es ih =>
    obtain ⟨c2, h1, h2⟩ := ih (addStep c e)
      (fun x hx => hkind x (List.mem_cons_of_mem e hx))
      (fun x hx => hkey x (List.mem_cons_of_mem e hx))
    refine ⟨c2, ?_, ?_⟩
    · rw [ingestAll, AddMetric_kindOk c e (hkind e (List.mem_cons_self e es))]
      exact h1
    · rw [h2]
      have hke : keyOf e = k := hkey e (List.mem_cons_self e es)
      show (((mapFind (mapInsert c.metricPoints (keyOf e) _) k).getD mvZero).points) ++ _ = _
      rw [hke, mapFind_insert_self]
      simp

/- ------------------------------------------------------------------ -/
/- C3                                                                  -/
/- ------------------------------------------------------------------ -/

/-- C3: ingesting any sequence of value-metric or counter-event envelopes
that all share the six identity fields of a key k not yet present in the
mapping leaves, for that key, exactly one observation per envelope, appended
in ingestion order. -/
theorem ingest_same_identity_accumulates_in_order (es : List Envelope) (c : Client)
    (k : metricKey) (hkind : ∀ e ∈ es, kindOk e) (hkey : ∀ e ∈ es, keyOf e = k)
    (hfresh : mapFind c.metricPoints k = none) :
    ∃ c2, ingestAll c es = some c2 ∧
      ((mapFind c2.metricPoints k).getD mvZero).points = es.map pointOf := by
  obtain ⟨c2, h1, h2⟩ := ingestAll_points_aux es c k hkind hkey
  rw [hfresh] at h2
  exact ⟨c2, h1, by simpa [mvZero] using h2⟩

/-- Witness for C3: two concrete envelopes of one identity, ingested into a
fresh client, leave the two observations in order. -/
theorem ingest_same_identity_accumulates_in_order_witness :
    ∃ c2, ingestAll cBase [e3a, e3b] = some c2 ∧
      ((mapFind c2.metricPoints (keyOf e3a)).getD mvZero).points = [e3a, e3b].map pointOf :=
  ingest_same_identity_accumulates_in_order [e3a, e3b] cBase (keyOf e3a)
    (by decide) (by decide) (by decide)

/- ------------------------------------------------------------------ -/
/- C4                                                                  -/
/- ------------------------------------------------------------------ -/

/-- C4: tags are last-write-wins per identity. After ingesting any sequence
of aggregated-kind envelopes in which e is the most recent one carrying the
identity k, the entry at k exists and its tag list is exactly the tag list
derived from e (earlier tag lists for k are overwritten, never merged),
where getTags emits deployment, job, index, ip in that fixed order skipping
empty fields. -/
theorem ingest_tags_last_write_wins (c : Client) (es1 es2 : List Envelope)
    (e : Envelope) (k : metricKey)
    (hkind : ∀ x ∈ es1 ++ e :: es2, kindOk x) (hke : keyOf e = k)
    (h2 : ∀ x ∈ es2, keyOf x ≠ k) :
    ∃ c2, ingestAll c (es1 ++ e :: es2) = some c2 ∧
      ∃ mv, mapFind c2.metricPoints k = some mv ∧ mv.tags = getTags e := by
  have hkind1 : ∀ x ∈ es1, kindOk x :=
    fun x hx => hkind x (List.mem_append_left _ hx)
  have hkinde : kindOk e :=
    hkind e (List.mem_append_right _ (List.mem_cons_self e es2))
  have hkind2 : ∀ x ∈ es2, kindOk x :=
    fun x hx => hkind x (List.mem_append_right _ (List.mem_cons_of_mem e hx))
  subst hke
  obtain ⟨c1, hc1⟩ := ingestAll_total es1 c hkind1
  obtain ⟨c2, hc2⟩ := ingestAll_total es2 (addStep c1 e) hkind2
  refine ⟨c2, ?_, ?_⟩
  · rw [ingestAll_append, hc1]
    show ingestAll c1 (e :: es2) = some c2
    rw [ingestAll, AddMetric_kindOk c1 e hkinde]
    exact hc2
  · have hun := ingestAll_untouched es2 (addStep c1 e) c2 (keyOf e) hkind2 h2 hc2
    rw [hun]
    show ∃ mv, mapFind (mapInsert c1.metricPoints (keyOf e) _) (keyOf e) = some mv ∧ _
    rw [mapFind_insert_self]
    exact ⟨_, rfl, rfl⟩

/-- Witness for C4: ingesting envelope A with job x and then envelope B,
identical apart from its empty job field, leaves an entry for the identity
of B whose tags are exactly those of B; they contain no job tag. -/
theorem ingest_tags_last_write_wins_witness :
    (∃ c2, ingestAll cBase [envA4, envB4] = some c2 ∧
      ∃ mv, mapFind c2.metricPoints (keyOf envB4) = some mv ∧ mv.tags = getTags envB4)
    ∧ getTags envB4 = ["deployment=prod", "index=0", "ip=1.2.3.4"] :=
  ⟨ingest_tags_last_write_wins cBase [envA4] [] envB4 (keyOf envB4)
      (by decide) (by decide) (by decide),
   by decide⟩

/- ------------------------------------------------------------------ -/
/- Lemmas on the internal metrics                                      -/
/- ------------------------------------------------------------------ -/

theorem addIM_internalKey (c : Client) (n : String) (v : Nat) (now : Int) (n2 : String) :
    internalKey (addInternalMetric c n v now) n2 = internalKey c n2 := rfl

theorem addIM_find_other (c : Client) (n : String) (v : Nat) (now : Int) (k : metricKey)
    (h : k ≠ internalKey c n) :
    mapFind (addInternalMetric c n v now).metricPoints k = mapFind c.metricPoints k :=
  mapFind_insert_ne _ _ _ _ h

theorem addIM_find_self (c : Client) (n : String) (v : Nat) (now : Int) (k : metricKey)
    (hk : k = internalKey c n) :
    mapFind (addInternalMetric c n v now).metricPoints k
      = some { tags := ["ip=" ++ c.ip, "deployment=" ++ c.deployment],
               points := [{ timestamp := now, value := (v : ℚ) }] } := by
  subst hk; exact mapFind_insert_self _ _ _

theorem addIM_find_other2 (c : Client) (n : String) (v : Nat) (now : Int) (k : metricKey)
    (h : k.name ≠ n) :
    mapFind (addInternalMetric c n v now).metricPoints k = mapFind c.metricPoints k :=
  addIM_find_other c n v now k fun hk => h (congrArg metricKey.name hk)

theorem internalKey_congr (c1 c2 : Client) (n : String)
    (hdep : c1.deployment = c2.deployment) (hip : c1.ip = c2.ip) :
    internalKey c1 n = internalKey c2 n := by
  unfold internalKey; rw [hdep, hip]

theorem addIM_contains (c : Client) (n : String) (v : Nat) (now : Int)
    (h : n ≠ "slowConsumerAlert") :
    containsSlowConsumerAlert (addInternalMetric c n v now) = containsSlowConsumerAlert c := by
  unfold containsSlowConsumerAlert
  rw [addIM_internalKey, addIM_find_other]
  exact internalKey_ne c _ _ (Ne.symm h)

theorem populate_find_alert (c : Client) (now : Int) :
    mapFind (populateInternalMetrics c now).metricPoints (internalKey c "slowConsumerAlert")
      = if containsSlowConsumerAlert c
        then mapFind c.metricPoints (internalKey c "slowConsumerAlert")
        else some { tags := ["ip=" ++ c.ip, "deployment=" ++ c.deployment],
                    points := [{ timestamp := now, value := ((0 : Nat) : ℚ) }] } := by
  have hne1 : internalKey c "slowConsumerAlert" ≠ internalKey c "totalMessagesReceived" :=
    internalKey_ne c _ _ (by decide)
  have hne2 : internalKey c "slowConsumerAlert" ≠ internalKey c "totalMetricsSent" :=
    internalKey_ne c _ _ (by decide)
  unfold populateInternalMetrics
  simp only [addIM_internalKey]
  rw [addIM_contains _ _ _ _ (by decide), addIM_contains _ _ _ _ (by decide)]
  by_cases hca : containsSlowConsumerAlert c = true
  · simp only [hca, Bool.not_true, Bool.false_eq_true, if_false, if_true]
    rw [addIM_find_other2, addIM_find_other2]
    all_goals first
      | exact (by decide : ("slowConsumerAlert" : String) ≠ "totalMessagesReceived")
      | exact (by decide : ("slowConsumerAlert" : String) ≠ "totalMetricsSent")
  · have hca' : containsSlowConsumerAlert c = false := by
      simpa using hca
    rw [hca']
    simp only [Bool.not_false, if_true, hca', Bool.false_eq_true, if_false]
    rw [addIM_find_self] <;> rfl

theorem populate_totalMessagesReceived (c : Client) (now : Int) :
    (populateInternalMetrics c now).totalMessagesReceived = c.totalMessagesReceived := by
  unfold populateInternalMetrics; simp only [addIM_internalKey]; split <;> rfl

theorem populate_totalMetricsSent (c : Client) (now : Int) :
    (populateInternalMetrics c now).totalMetricsSent = c.totalMetricsSent := by
  unfold populateInternalMetrics; simp only [addIM_internalKey]; split <;> rfl

theorem populate_deployment (c : Client) (now : Int) :
    (populateInternalMetrics c now).deployment = c.deployment := by
  unfold populateInternalMetrics; simp only [addIM_internalKey]; split <;> rfl

theorem populate_ip (c : Client) (now : Int) :
    (populateInternalMetrics c now).ip = c.ip := by
  unfold populateInternalMetrics; simp only [addIM_internalKey]; split <;> rfl

theorem populate_on_empty (c0 : Client) (now2 : Int) (h : c0.metricPoints = []) :
    (populateInternalMetrics c0 now2).metricPoints
      = [(internalKey c0 "totalMessagesReceived",
          { tags := ["ip=" ++ c0.ip, "deployment=" ++ c0.deployment],
            points := [{ timestamp := now2, value := (c0.totalMessagesReceived : ℚ) }] }),
         (internalKey c0 "totalMetricsSent",
          { tags := ["ip=" ++ c0.ip, "deployment=" ++ c0.deployment],
            points := [{ timestamp := now2, value := (c0.totalMetricsSent : ℚ) }] }),
         (internalKey c0 "slowConsumerAlert",
          { tags := ["ip=" ++ c0.ip, "deployment=" ++ c0.deployment],
            points := [{ timestamp := now2, value := ((0 : Nat) : ℚ) }] })] := by
  have h1 : ("totalMessagesReceived" : String) ≠ "totalMetricsSent" := by decide
  have h2 : ("totalMessagesReceived" : String) ≠ "slowConsumerAlert" := by decide
  have h3 : ("totalMetricsSent" : String) ≠ "slowConsumerAlert" := by decide
  simp only [populateInternalMetrics, addInternalMetric, containsSlowConsumerAlert,
    internalKey, h, mapInsert, mapFind, metricKey.mk.injEq, h1, h2, h3,
    false_and, and_false, if_false, true_and, and_true, if_true,
    Option.isSome_none, Bool.not_false, Bool.false_eq_true]

theorem key_ne_internal (k : metricKey) (c : Client) (n : String)
    (h : k.eventType ≠ 0) : k ≠ internalKey c n :=
  fun hk => h (congrArg metricKey.eventType hk)

theorem populate_find_other (c : Client) (now : Int) (k : metricKey)
    (h : k.eventType ≠ 0) :
    mapFind (populateInternalMetrics c now).metricPoints k = mapFind c.metricPoints k := by
  unfold populateInternalMetrics
  simp only [addIM_internalKey]
  split
  · rw [addIM_find_other _ _ _ _ _ (key_ne_internal k _ _ h),
      addIM_find_other _ _ _ _ _ (key_ne_internal k _ _ h),
      addIM_find_other _ _ _ _ _ (key_ne_internal k _ _ h)]
  · rw [addIM_find_other _ _ _ _ _ (key_ne_internal k _ _ h),
      addIM_find_other _ _ _ _ _ (key_ne_internal k _ _ h)]

/- ------------------------------------------------------------------ -/
/- C5                                                                  -/
/- ------------------------------------------------------------------ -/

/-- C5: the snapshot of internal metrics never overwrites an existing alert
entry: when the alert entry is present the snapshot leaves it untouched, and
the recordAlert-then-snapshot sequence leaves the alert entry holding value
1 stored by recordAlert; only when no alert entry exists does the snapshot
add the healthy default with value 0. -/
theorem slow_consumer_alert_snapshot (c : Client) (now now1 : Int) :
    (containsSlowConsumerAlert c = true →
      mapFind (populateInternalMetrics c now).metricPoints (internalKey c "slowConsumerAlert")
        = mapFind c.metricPoints (internalKey c "slowConsumerAlert"))
    ∧ (containsSlowConsumerAlert c = false →
      mapFind (populateInternalMetrics c now).metricPoints (internalKey c "slowConsumerAlert")
        = some { tags := ["ip=" ++ c.ip, "deployment=" ++ c.deployment],
                 points := [{ timestamp := now, value := ((0 : Nat) : ℚ) }] })
    ∧ mapFind (populateInternalMetrics (AlertSlowConsumerError c now1) now).metricPoints
          (internalKey c "slowConsumerAlert")
        = some { tags := ["ip=" ++ c.ip, "deployment=" ++ c.deployment],
                 points := [{ timestamp := now1, value := ((1 : Nat) : ℚ) }] } := by
  refine ⟨fun hca => ?_, fun hca => ?_, ?_⟩
  · rw [populate_find_alert, if_pos hca]
  · rw [populate_find_alert, hca]
    simp
  · have h1 : containsSlowConsumerAlert (AlertSlowConsumerError c now1) = true := by
      unfold AlertSlowConsumerError containsSlowConsumerAlert
      rw [addIM_internalKey, addIM_find_self c _ _ _ _ rfl]
      rfl
    have h2 := populate_find_alert (AlertSlowConsumerError c now1) now
    rw [h1, if_pos rfl] at h2
    exact h2.trans (addIM_find_self c _ _ _ _ rfl)

/-- Witness for C5: on a fresh concrete client the snapshot alone stores the
0-default, while recordAlert followed by the snapshot keeps value 1. -/
theorem slow_consumer_alert_snapshot_witness :
    mapFind (populateInternalMetrics cBase 7).metricPoints
        (internalKey cBase "slowConsumerAlert")
      = some { tags := ["ip=" ++ cBase.ip, "deployment=" ++ cBase.deployment],
               points := [{ timestamp := 7, value := ((0 : Nat) : ℚ) }] }
    ∧ mapFind (populateInternalMetrics (AlertSlowConsumerError cBase 5) 7).metricPoints
        (internalKey cBase "slowConsumerAlert")
      = some { tags := ["ip=" ++ cBase.ip, "deployment=" ++ cBase.deployment],
               points := [{ timestamp := 5, value := ((1 : Nat) : ℚ) }] } :=
  ⟨(slow_consumer_alert_snapshot cBase 7 5).2.1 (by decide),
   (slow_consumer_alert_snapshot cBase 7 5).2.2⟩

/- ------------------------------------------------------------------ -/
/- C6                                                                  -/
/- ------------------------------------------------------------------ -/

/-- C6: when the POST fails (network error or non-2xx status) the flush
returns an error, the mapping is exactly the pre-flush mapping plus the
internal metrics the snapshot step added (in particular every ingested
entry, whose key has a nonzero event type, is retained unchanged), and
neither cumulative counter changes. -/
theorem failed_flush_retains_entries (c : Client) (now : Int) (r : TransportResult)
    (h : isFailure r) :
    (PostMetrics c now r).2 = false
    ∧ (PostMetrics c now r).1 = populateInternalMetrics c now
    ∧ (PostMetrics c now r).1.totalMetricsSent = c.totalMetricsSent
    ∧ (PostMetrics c now r).1.totalMessagesReceived = c.totalMessagesReceived
    ∧ ∀ k, k.eventType ≠ 0 →
        mapFind (PostMetrics c now r).1.metricPoints k = mapFind c.metricPoints k := by
  have hpost : PostMetrics c now r = (populateInternalMetrics c now, false) := by
    cases r with
    | netError => rfl
    | status code =>
      have h2 : code ≥ 300 ∨ code < 200 := h
      show (if code ≥ 300 ∨ code < 200 then _ else _) = _
      rw [if_pos h2]
  rw [hpost]
  exact ⟨rfl, rfl, populate_totalMetricsSent c now, populate_totalMessagesReceived c now,
    fun k hk => populate_find_other c now k hk⟩

/-- Witness for C6: a concrete failed flush with status 500. -/
theorem failed_flush_retains_entries_witness :
    (PostMetrics cBase 0 (.status 500)).2 = false
    ∧ (PostMetrics cBase 0 (.status 500)).1 = populateInternalMetrics cBase 0
    ∧ (PostMetrics cBase 0 (.status 500)).1.totalMetricsSent = cBase.totalMetricsSent
    ∧ (PostMetrics cBase 0 (.status 500)).1.totalMessagesReceived
        = cBase.totalMessagesReceived
    ∧ ∀ k, k.eventType ≠ 0 →
        mapFind (PostMetrics cBase 0 (.status 500)).1.metricPoints k
          = mapFind cBase.metricPoints k :=
  failed_flush_retains_entries cBase 0 (.status 500) (by decide)

/- ------------------------------------------------------------------ -/
/- C7                                                                  -/
/- ------------------------------------------------------------------ -/

/-- C7: a successful flush (2xx) replaces the mapping with the empty
mapping; totalMessagesReceived is unchanged and totalMetricsSent grows by
exactly the record count of the posted batch; a second flush prepared with
no intervening ingests snapshots a mapping holding exactly the three
internal metrics, so its batch has record count 3. -/
theorem successful_flush_resets_entries (c : Client) (now now2 : Int) (code : Nat)
    (h1 : 200 ≤ code) (h2 : code < 300) :
    (PostMetrics c now (.status code)).2 = true
    ∧ (PostMetrics c now (.status code)).1.metricPoints = []
    ∧ (PostMetrics c now (.status code)).1.totalMessagesReceived = c.totalMessagesReceived
    ∧ (PostMetrics c now (.status code)).1.totalMetricsSent
        = (c.totalMetricsSent + (formatMetrics (populateInternalMetrics c now) now).2) % 2 ^ 64
    ∧ (populateInternalMetrics (PostMetrics c now (.status code)).1 now2).metricPoints.map
          Prod.fst
        = [internalKey c "totalMessagesReceived", internalKey c "totalMetricsSent",
           internalKey c "slowConsumerAlert"]
    ∧ (formatMetrics (populateInternalMetrics (PostMetrics c now (.status code)).1 now2)
          now2).2 = 3 := by
  have hcond : ¬ (code ≥ 300 ∨ code < 200) := by omega
  have hpost : PostMetrics c now (.status code)
      = ({ populateInternalMetrics c now with
            totalMetricsSent := ((populateInternalMetrics c now).totalMetricsSent
              + (formatMetrics (populateInternalMetrics c now) now).2) % 2 ^ 64,
            metricPoints := [] }, true) := by
    show (if code ≥ 300 ∨ code < 200 then _ else _) = _
    rw [if_neg hcond]
  have hres : (PostMetrics c now (.status code)).1.metricPoints = [] := by rw [hpost]
  have hdep2 : (PostMetrics c now (.status code)).1.deployment = c.deployment := by
    rw [hpost]; exact populate_deployment c now
  have hip2 : (PostMetrics c now (.status code)).1.ip = c.ip := by
    rw [hpost]; exact populate_ip c now
  have hkeys := populate_on_empty (PostMetrics c now (.status code)).1 now2 hres
  refine ⟨?_, hres, ?_, ?_, ?_, ?_⟩
  · rw [hpost]
  · rw [hpost]; exact populate_totalMessagesReceived c now
  · rw [hpost]
    show ((populateInternalMetrics c now).totalMetricsSent + _) % 2 ^ 64 = _
    rw [populate_totalMetricsSent]
  · rw [hkeys]
    simp only [List.map_cons, List.map_nil]
    rw [internalKey_congr _ c _ hdep2 hip2, internalKey_congr _ c _ hdep2 hip2,
      internalKey_congr _ c _ hdep2 hip2]
  · show (populateInternalMetrics (PostMetrics c now (.status code)).1 now2).metricPoints.length
        = 3
    rw [hkeys]
    rfl

/-- Witness for C7: a concrete successful flush with status 204 on a fresh
client, followed by the snapshot of a second flush. -/
theorem successful_flush_resets_entries_witness :
    (PostMetrics cBase 0 (.status 204)).2 = true
    ∧ (PostMetrics cBase 0 (.status 204)).1.metricPoints = []
    ∧ (PostMetrics cBase 0 (.status 204)).1.totalMessagesReceived
        = cBase.totalMessagesReceived
    ∧ (PostMetrics cBase 0 (.status 204)).1.totalMetricsSent
        = (cBase.totalMetricsSent
            + (formatMetrics (populateInternalMetrics cBase 0) 0).2) % 2 ^ 64
    ∧ (populateInternalMetrics (PostMetrics cBase 0 (.status 204)).1 1).metricPoints.map
          Prod.fst
        = [internalKey cBase "totalMessagesReceived", internalKey cBase "totalMetricsSent",
           internalKey cBase "slowConsumerAlert"]
    ∧ (formatMetrics (populateInternalMetrics (PostMetrics cBase 0 (.status 204)).1 1)
          1).2 = 3 :=
  successful_flush_resets_entries cBase 0 1 204 (by decide) (by decide)

/- ------------------------------------------------------------------ -/
/- C8                                                                  -/
/- ------------------------------------------------------------------ -/

/-- Counterexample for C8: ingesting a value-metric envelope whose nested
ValueMetric payload is missing does NOT abort: the nil-safe getters yield
the empty name component and value zero, and AddMetric returns a state that
holds an entry for the envelope (name org. and value 0), instead of none. -/
theorem addMetric_missing_payload_no_abort :
    (AddMetric cBase envMissing).isSome = true
    ∧ (AddMetric cBase envMissing).getD cBase
        = { cBase with
            totalMessagesReceived := 1,
            metricPoints :=
              [({ eventType := Envelope_ValueMetric, name := "org.",
                  deployment := "prod", job := "", index := "", ip := "1.2.3.4" },
                { tags := ["deployment=prod", "ip=1.2.3.4"],
                  points := [{ timestamp := 5, value := 0 }] })] } := by
  decide

/-- C8 amended: for every envelope of value-metric or counter-event kind
whose nested payloads are missing, ingest does not abort; the nil-safe proto
getters make the derived metric name the origin followed by a bare dot and
the observed value 0, and an entry for the envelope identity is produced.
The panic in getName and getValue is only reachable for event types that
AddMetric has already filtered out. -/
theorem addMetric_missing_payload_produces_entry (c : Client) (e : Envelope)
    (h : kindOk e) (hvm : e.valueMetric = none) (hce : e.counterEvent = none) :
    ∃ c2, AddMetric c e = some c2
      ∧ (keyOf e).name = e.getOrigin ++ "."
      ∧ ∃ mv, mapFind c2.metricPoints (keyOf e) = some mv ∧
          ∃ ps0, mv.points
            = ps0 ++ [{ timestamp := e.getTimestamp.tdiv 1000000000, value := 0 }] := by
  refine ⟨addStep c e, AddMetric_kindOk c e h, ?_, ?_⟩
  · rcases h with h | h <;>
      simp [keyOf, getName, h, hvm, hce, vmGetName, ceGetName,
        Envelope_ValueMetric, Envelope_CounterEvent, String.append_empty]
  · show ∃ mv, mapFind (mapInsert c.metricPoints (keyOf e) _) (keyOf e) = some mv ∧ _
    rw [mapFind_insert_self]
    refine ⟨_, rfl, ((mapFind c.metricPoints (keyOf e)).getD mvZero).points, ?_⟩
    have hval : (getValue e).getD 0 = 0 := by
      rcases h with h | h <;>
        simp [getValue, h, hvm, hce, vmGetValue, ceGetTotal,
          Envelope_ValueMetric, Envelope_CounterEvent]
    simp [pointOf, hval]

/-- Witness for the amended C8 at the concrete payload-free envelope. -/
theorem addMetric_missing_payload_produces_entry_witness :
    ∃ c2, AddMetric cBase envMissing = some c2
      ∧ (keyOf envMissing).name = envMissing.getOrigin ++ "."
      ∧ ∃ mv, mapFind c2.metricPoints (keyOf envMissing) = some mv ∧
          ∃ ps0, mv.points
            = ps0 ++ [{ timestamp := envMissing.getTimestamp.tdiv 1000000000,
                        value := 0 }] :=
  addMetric_missing_payload_produces_entry cBase envMissing
    (by decide) (by decide) (by decide)

/- ------------------------------------------------------------------ -/
/- C9                                                                  -/
/- ------------------------------------------------------------------ -/

theorem inv_addInternalMetric (c : Client) (n : String) (v : Nat) (now : Int)
    (h : ∀ kv ∈ c.metricPoints, kv.2.points ≠ []) :
    ∀ kv ∈ (addInternalMetric c n v now).metricPoints, kv.2.points ≠ [] := by
  intro kv hkv
  rcases mem_mapInsert _ _ _ _ hkv with hkv | hkv
  · rw [hkv]; simp
  · exact h kv hkv

theorem inv_populate (c : Client) (now : Int)
    (h : ∀ kv ∈ c.metricPoints, kv.2.points ≠ []) :
    ∀ kv ∈ (populateInternalMetrics c now).metricPoints, kv.2.points ≠ [] := by
  unfold populateInternalMetrics
  simp only [addIM_internalKey]
  split
  · exact inv_addInternalMetric _ _ _ _
      (inv_addInternalMetric _ _ _ _ (inv_addInternalMetric _ _ _ _ h))
  · exact inv_addInternalMetric _ _ _ _ (inv_addInternalMetric _ _ _ _ h)

theorem inv_addStep (c : Client) (e : Envelope)
    (h : ∀ kv ∈ c.metricPoints, kv.2.points ≠ []) :
    ∀ kv ∈ (addStep c e).metricPoints, kv.2.points ≠ [] := by
  intro kv hkv
  rcases mem_mapInsert _ _ _ _ hkv with hkv | hkv
  · rw [hkv]; simp
  · exact h kv hkv

/-- C9: in every reachable state, every aggregate entry holds at least one
observation, so formatTimestamp always takes the first-point branch and the
wall-clock fallback for an empty point list is never used on an entry of a
reachable state. -/
theorem reachable_entry_points_nonempty (c : Client) (h : Reachable c) :
    ∀ kv ∈ c.metricPoints, ∃ p ps, kv.2.points = p :: ps
      ∧ ∀ now, formatTimestamp kv.2.points now
          = toString (wrap64 (p.timestamp * 1000 * 1000 * 1000)) := by
  have hinv : ∀ kv ∈ c.metricPoints, kv.2.points ≠ [] := by
    induction h with
    | init url database user password pfx deployment ip =>
      intro kv hkv
      exact absurd hkv (List.not_mem_nil kv)
    | ingest c e c2 hr heq ih =>
      by_cases hk : kindOk e
      · rw [AddMetric_kindOk c e hk] at heq
        cases heq
        exact inv_addStep c e ih
      · rw [AddMetric_notKind c e hk] at heq
        cases heq
        exact ih
    | alert c now hr ih => exact inv_addInternalMetric _ _ _ _ ih
    | snapshot c now hr ih => exact inv_populate _ _ ih
    | flush c now result hr ih =>
      cases result with
      | netError => exact inv_populate _ _ ih
      | status code =>
        by_cases hcode : code ≥ 300 ∨ code < 200
        · have hmp : PostMetrics c now (.status code)
              = (populateInternalMetrics c now, false) := by
            show (if code ≥ 300 ∨ code < 200 then _ else _) = _
            rw [if_pos hcode]
          rw [hmp]
          exact inv_populate _ _ ih
        · have hmp : PostMetrics c now (.status code)
              = ({ populateInternalMetrics c now with
                    totalMetricsSent := ((populateInternalMetrics c now).totalMetricsSent
                      + (formatMetrics (populateInternalMetrics c now) now).2) % 2 ^ 64,
                    metricPoints := [] }, true) := by
            show (if code ≥ 300 ∨ code < 200 then _ else _) = _
            rw [if_neg hcode]
          rw [hmp]
          intro kv hkv
          exact absurd hkv (List.not_mem_nil kv)
  intro kv hkv
  obtain ⟨p, ps, hpts⟩ : ∃ p ps, kv.2.points = p :: ps := by
    cases hpoints : kv.2.points with
    | nil => exact absurd hpoints (hinv kv hkv)
    | cons p ps => exact ⟨p, ps, rfl⟩
  refine ⟨p, ps, hpts, fun now => ?_⟩
  rw [hpts]
  rfl

/-- Witness for C9 at a concrete reachable state: a fresh client after one
recordAlert call; its single entry holds one observation, and formatTimestamp
on that entry ignores the wall clock. -/
theorem reachable_entry_points_nonempty_witness :
    ∃ p ps,
      ({ tags := ["ip=1.2.3.4", "deployment=prod"],
         points := [{ timestamp := 5, value := ((1 : Nat) : ℚ) }] } : metricValue).points
        = p :: ps
      ∧ formatTimestamp
          ({ tags := ["ip=1.2.3.4", "deployment=prod"],
             points := [{ timestamp := 5, value := ((1 : Nat) : ℚ) }] } : metricValue).points 7
          = toString (wrap64 (p.timestamp * 1000 * 1000 * 1000)) := by
  obtain ⟨p, ps, h1, h2⟩ :=
    reachable_entry_points_nonempty _
      (Reachable.alert _ 5 (Reachable.init "http://i" "db" "u" "pw" "app." "prod" "1.2.3.4"))
      ({ eventType := 0, name := "slowConsumerAlert", deployment := "prod", job := "",
         index := "", ip := "1.2.3.4" },
       { tags := ["ip=1.2.3.4", "deployment=prod"],
         points := [{ timestamp := 5, value := ((1 : Nat) : ℚ) }] })
      (by decide)
  exact ⟨p, ps, h1, h2 7⟩

/- ------------------------------------------------------------------ -/
/- C10                                                                 -/
/- ------------------------------------------------------------------ -/

/-- C10: internal-metric entries are keyed with the zero event type while
every entry AddMetric creates carries event type value-metric or
counter-event; the two key spaces are disjoint, so ingest never reads or
changes a key of event type zero or the outcome of the slow-consumer alert
check, and the internal-metric writers never change a key of nonzero event
type. -/
theorem internal_and_ingested_key_spaces_disjoint :
    (∀ (c : Client) (e : Envelope) (c2 : Client), AddMetric c e = some c2 →
        (∀ k, k.eventType = 0 → mapFind c2.metricPoints k = mapFind c.metricPoints k)
        ∧ containsSlowConsumerAlert c2 = containsSlowConsumerAlert c)
    ∧ (∀ e, kindOk e → (keyOf e).eventType ≠ 0)
    ∧ (∀ (c : Client) (n : String), (internalKey c n).eventType = 0)
    ∧ (∀ (c : Client) (n : String) (v : Nat) (now : Int) (k : metricKey),
        k.eventType ≠ 0 →
        mapFind (addInternalMetric c n v now).metricPoints k = mapFind c.metricPoints k)
    ∧ (∀ (c : Client) (now : Int) (k : metricKey), k.eventType ≠ 0 →
        mapFind (AlertSlowConsumerError c now).metricPoints k = mapFind c.metricPoints k
        ∧ mapFind (populateInternalMetrics c now).metricPoints k
            = mapFind c.metricPoints k) := by
  have hkeyOf : ∀ e, kindOk e → (keyOf e).eventType ≠ 0 := by
    intro e hk
    rcases hk with h | h <;>
      simp [keyOf, h, Envelope_ValueMetric, Envelope_CounterEvent]
  refine ⟨?_, hkeyOf, fun c n => rfl, ?_, ?_⟩
  · intro c e c2 heq
    by_cases hk : kindOk e
    · rw [AddMetric_kindOk c e hk] at heq
      cases heq
      have hfind : ∀ k, k.eventType = 0 →
          mapFind (addStep c e).metricPoints k = mapFind c.metricPoints k := by
        intro k hk0
        show mapFind (mapInsert c.metricPoints (keyOf e) _) k = _
        exact mapFind_insert_ne _ _ _ _ fun hkk =>
          hkeyOf e hk (hkk ▸ hk0)
      refine ⟨hfind, ?_⟩
      unfold containsSlowConsumerAlert
      rw [show internalKey (addStep c e) "slowConsumerAlert"
            = internalKey c "slowConsumerAlert" from rfl,
        hfind _ rfl]
    · rw [AddMetric_notKind c e hk] at heq
      cases heq
      exact ⟨fun k _ => rfl, rfl⟩
  · intro c n v now k hk
    exact addIM_find_other _ _ _ _ _ (key_ne_internal k _ _ hk)
  · intro c now k hk
    exact ⟨addIM_find_other _ _ _ _ _ (key_ne_internal k _ _ hk),
      populate_find_other c now k hk⟩

/-- Witness for C10: the concrete ingest of an envelope whose derived name
mentions the alert and whose deployment and ip match the client leaves the
alert check unchanged, and recordAlert leaves the ingested key unchanged. -/
theorem internal_and_ingested_key_spaces_disjoint_witness :
    (mapFind c10after.metricPoints (internalKey cBase "slowConsumerAlert")
        = mapFind cBase.metricPoints (internalKey cBase "slowConsumerAlert")
      ∧ containsSlowConsumerAlert c10after = containsSlowConsumerAlert cBase)
    ∧ mapFind (AlertSlowConsumerError cBase 3).metricPoints (keyOf e10)
        = mapFind cBase.metricPoints (keyOf e10) := by
  refine ⟨⟨?_, ?_⟩, ?_⟩
  · exact (internal_and_ingested_key_spaces_disjoint.1 cBase e10 c10after
      (by decide)).1 (internalKey cBase "slowConsumerAlert") rfl
  · exact (internal_and_ingested_key_spaces_disjoint.1 cBase e10 c10after
      (by decide)).2
  · exact (internal_and_ingested_key_spaces_disjoint.2.2.2.2 cBase 3 (keyOf e10)
      (by decide)).1

end Influxdbclient
